import Mathlib

/-!
Verification of the two-stage travel-planner pipeline (`assign_2.py`):
redaction utility, tool-event logger, search tool adapter, result-text
extraction and the planner→reviewer orchestration in the chat handler.
Python strings are modelled as `List Char`, Python exceptions as `Except`.
-/

set_option autoImplicit false

namespace TravelPlanner

/-- Python strings, modelled as lists of characters. -/
abbrev Str := List Char

/-- `s.lower()`, character-wise lowering. -/
def lowerStr (s : Str) : Str := s.map Char.toLower

/-- Does `s` start with `pat`?  (`pat` is the first argument.) -/
def firstMatches : Str → Str → Bool
  | [], _ => true
  | _ :: _, [] => false
  | a :: pa, b :: sb => a == b && firstMatches pa sb

/-- Python substring test `pat in s` (occurrence of `pat` anywhere in `s`). -/
def hasSub : Str → Str → Bool
  | [], pat => pat.isEmpty
  | b :: rest, pat => firstMatches pat (b :: rest) || hasSub rest pat

/-! ## Python values

`redact_for_logs` receives arbitrary Python values.  We model the value
universe as strings, ints, bools, `None`, dicts (whose keys are themselves
arbitrary values, as in Python) and lists. -/

mutual

inductive PyVal where
  | str : Str → PyVal
  | int : Int → PyVal
  | bool : Bool → PyVal
  | none : PyVal
  | dict : PyDict → PyVal
  | list : PyList → PyVal

inductive PyList where
  | nil : PyList
  | cons : PyVal → PyList → PyList

inductive PyDict where
  | nil : PyDict
  | cons : PyVal → PyVal → PyDict → PyDict

end

/-- `k.lower()` on an arbitrary Python value: succeeds only on strings,
raises `AttributeError` otherwise (ints, bools, `None`, dicts, lists have
no `lower` method). -/
def pyLower : PyVal → Except Str Str
  | .str s => .ok (lowerStr s)
  | _ => .error "AttributeError: object has no attribute lower".toList

/-- The fixed redaction marker `"[redacted]"` (lines 60/63). -/
def redactedMarker : Str := "[redacted]".toList

/-- The truncation marker appended at line 61. -/
def truncMarker : Str := "… [truncated]".toList

/-- Line 59: `any(k in low for k in ("api_key", "token", "secret", "password"))`
applied to `low = value.lower()`. -/
def strHasSensitive (s : Str) : Bool :=
  hasSub (lowerStr s) "api_key".toList || hasSub (lowerStr s) "token".toList ||
    hasSub (lowerStr s) "secret".toList || hasSub (lowerStr s) "password".toList

/-- Line 63: `any(s in k.lower() for s in ("key", "token", "secret", "password"))`,
taking the already-lowered key. -/
def keySensitiveLow (low : Str) : Bool :=
  hasSub low "key".toList || hasSub low "token".toList ||
    hasSub low "secret".toList || hasSub low "password".toList

/-- The string branch of `redact_for_logs` (lines 57-61). -/
def redactStr (s : Str) : PyVal :=
  if strHasSensitive s then .str redactedMarker
  else if s.length ≤ 300 then .str s
  else .str (s.take 120 ++ truncMarker)

mutual

/-- `redact_for_logs` (lines 52-68).  Strings are redacted/truncated, dicts
redact entries with sensitive-looking keys (computing `k.lower()`, which
raises on non-string keys), lists recurse element-wise, anything else is
returned unchanged.  The `Except` layer records a raised Python exception. -/
def redact_for_logs : PyVal → Except Str PyVal
  | .str s => .ok (redactStr s)
  | .dict d => do
      let d2 ← redactDict d
      return .dict d2
  | .list l => do
      let l2 ← redactList l
      return .list l2
  | v => .ok v

/-- The dict comprehension of lines 63-65, entry by entry in order. -/
def redactDict : PyDict → Except Str PyDict
  | .nil => .ok .nil
  | .cons k v rest => do
      let low ← pyLower k
      let v2 ← if keySensitiveLow low then pure (PyVal.str redactedMarker) else redact_for_logs v
      let rest2 ← redactDict rest
      return .cons k v2 rest2

/-- The list comprehension of line 67. -/
def redactList : PyList → Except Str PyList
  | .nil => .ok .nil
  | .cons v rest => do
      let v2 ← redact_for_logs v
      let rest2 ← redactList rest
      return .cons v2 rest2

end

/-! ## Reference redaction, modelled from the specification words (§4.1)

"String scalars: if the lowercased text contains any of a fixed set of
sensitive-looking substrings (`api_key`, `token`, `secret`, `password`),
replace the whole value with a fixed redaction marker; otherwise pass
through unchanged if at most 300 characters, else truncate to the first
120 characters and append a truncation marker.  Mapping entries: if a
key's lowercased name contains any of (`key`, `token`, `secret`,
`password`), replace the value with the redaction marker regardless of
its content; otherwise recurse into the value.  Sequences: recurse
element-wise, preserving order." -/

/-- Spec §4.1, string-scalar sensitivity: the lowercased text contains one
of the four sensitive substrings. -/
def specStrSensitive (s : Str) : Bool :=
  hasSub (lowerStr s) "api_key".toList || hasSub (lowerStr s) "token".toList ||
    hasSub (lowerStr s) "secret".toList || hasSub (lowerStr s) "password".toList

/-- Spec §4.1, mapping-key sensitivity: the key's lowercased name contains
one of the four key substrings. -/
def specKeySensitive (k : Str) : Bool :=
  hasSub (lowerStr k) "key".toList || hasSub (lowerStr k) "token".toList ||
    hasSub (lowerStr k) "secret".toList || hasSub (lowerStr k) "password".toList

mutual

/-- The reference redaction function, written from the specification text
(§4.1): total, with entries under a non-string key treated as "other
entries" that recurse into the value. -/
def redactSpec : PyVal → PyVal
  | .str s =>
      if specStrSensitive s then .str redactedMarker
      else if s.length ≤ 300 then .str s
      else .str (s.take 120 ++ truncMarker)
  | .dict d => .dict (redactSpecDict d)
  | .list l => .list (redactSpecList l)
  | v => v

/-- Reference redaction over mapping entries. -/
def redactSpecDict : PyDict → PyDict
  | .nil => .nil
  | .cons k v rest =>
      .cons k
        (match k with
         | .str ks => if specKeySensitive ks then .str redactedMarker else redactSpec v
         | _ => redactSpec v)
        (redactSpecDict rest)

/-- Reference redaction over sequences, preserving order. -/
def redactSpecList : PyList → PyList
  | .nil => .nil
  | .cons v rest => .cons (redactSpec v) (redactSpecList rest)

end

mutual

/-- All mapping keys occurring anywhere inside the value are strings. -/
def strKeyed : PyVal → Bool
  | .dict d => strKeyedDict d
  | .list l => strKeyedList l
  | _ => true

def strKeyedDict : PyDict → Bool
  | .nil => true
  | .cons k v rest =>
      (match k with | .str _ => true | _ => false) && strKeyed v && strKeyedDict rest

def strKeyedList : PyList → Bool
  | .nil => true
  | .cons v rest => strKeyed v && strKeyedList rest

end

deriving instance DecidableEq for Except
deriving instance DecidableEq for PyVal
deriving instance DecidableEq for PyList
deriving instance DecidableEq for PyDict

/-! ## Tool events and the logger (lines 31-49)

`TOOL_LOGGER` is a single optional process-wide slot holding the UI
callback.  A callback may mutate its own state and may raise; we model it
as a state transformer returning its new state together with the message
of a raised exception, if any. -/

/-- The four event dict shapes built at lines 91, 107, 115 and 119. -/
inductive ToolEvent where
  | callEv (tool : Str) (args : PyVal)
  | resultEv (tool : Str) (preview : PyVal)
  | errorEv (tool : Str) (error : Str)
  | endEv (tool : Str)
deriving DecidableEq

/-- The `type` tag of an event. -/
inductive EvType where
  | call
  | result
  | error
  | evEnd
deriving DecidableEq, BEq

/-- Projection of an event to its `type` tag. -/
def ToolEvent.etype : ToolEvent → EvType
  | .callEv .. => .call
  | .resultEv .. => .result
  | .errorEv .. => .error
  | .endEv .. => .evEnd

/-- A logger callback over its own state `σ`: returns the state after the
call together with `some msg` when the callback raised (its side effects
up to the raise are kept, as in Python). -/
abbrev SinkFun (σ : Type) := ToolEvent → σ → σ × Option Str

/-- `log_tool_event` (lines 42-49): if a logger is installed, call it
inside `try`/`except Exception: pass`; a raise inside the callback is
swallowed, so the second component (the exception propagated to the
caller of `log_tool_event`) is always `none`. -/
def log_tool_event {σ : Type} (slot : Option (SinkFun σ)) (ev : ToolEvent) (s : σ) :
    σ × Option Str :=
  match slot with
  | none => (s, none)
  | some f =>
      let r := f ev s
      (r.1, none)

/-- Emitting a whole sequence of events through `log_tool_event`; a raise
escaping some emission (there is none) would abort the sequence. -/
def emitAll {σ : Type} (slot : Option (SinkFun σ)) : List ToolEvent → σ → σ × Option Str
  | [], s => (s, none)
  | ev :: rest, s =>
      match log_tool_event slot ev s with
      | (s2, Option.none) => emitAll slot rest s2
      | (s2, Option.some e) => (s2, some e)

/-! ## Search tool adapter `internet_search` (lines 84-119) -/

/-- One Tavily result item: `it.get("title", "N/A")` yields the default
only when the key is absent, modelled by `Option`. -/
structure TavilyItem where
  title : Option Str
  content : Option Str
deriving DecidableEq

/-- Behaviour of the external code inside the `try` after the credential
check (client construction plus `client.search` plus response access):
either a well-formed result list or a raised exception with a message. -/
inductive TavilyOutcome where
  | success (results : List TavilyItem)
  | raises (msg : Str)
deriving DecidableEq

/-- The tool name appearing in every event the adapter emits. -/
def searchToolName : Str := "internet_search".toList

/-- Python truthiness of `os.getenv(...)`: `None` and `""` are falsy
(`if not api_key:` at line 95 catches both). -/
def pyTruthyStr : Option Str → Bool
  | Option.none => false
  | some s => !s.isEmpty

/-- `internet_search` (lines 84-119), as a function of the
`TAVILY_API_KEY` environment value and the outcome of the external call.
It returns the tool output string together with the ordered sequence of
events it hands to `log_tool_event`; the `finally` block appends the
`end` event on every exit path, and no path re-raises to the caller. -/
def internet_search (env_TAVILY_API_KEY : Option Str) (tavily : TavilyOutcome)
    (query : Str) : Str × List ToolEvent :=
  let ev0 : ToolEvent :=
    .callEv searchToolName
      (PyVal.dict (PyDict.cons (PyVal.str "query".toList) (redactStr query) PyDict.nil))
  if !(pyTruthyStr env_TAVILY_API_KEY) then
    let msg := "missing TAVILY_API_KEY in environment.".toList
    ("Search error: ".toList ++ msg,
     [ev0, .errorEv searchToolName msg, .endEv searchToolName])
  else
    match tavily with
    | .raises m =>
        ("Search error: ".toList ++ m,
         [ev0, .errorEv searchToolName m, .endEv searchToolName])
    | .success items =>
        let lines := items.map (fun it =>
          "- ".toList ++ it.title.getD "N/A".toList ++ ": ".toList ++
            it.content.getD "N/A".toList)
        let output :=
          if lines.isEmpty then "No results found.".toList
          else List.intercalate "\n".toList lines
        let preview :=
          redactStr (output.take 400 ++ (if 400 < output.length then "…".toList else []))
        (output, [ev0, .resultEv searchToolName preview, .endEv searchToolName])

/-! ## Result extraction and stage runners (lines 389-410) -/

/-- A stage result object as the orchestrator sees it: the optional
`final_output` and `text` attributes (absent = `none`) and the generic
`str(result_obj)` rendering. -/
structure RunResult where
  final_output : Option Str
  text : Option Str
  strRepr : Str
deriving DecidableEq

/-- Python `a or b` for an optional string `a`: `None` and `""` fall
through to `b`. -/
def pyOrStr (a : Option Str) (b : Str) : Str :=
  match a with
  | Option.none => b
  | some s => if s.isEmpty then b else s

/-- `extract_text` (lines 389-398):
`getattr(r, "final_output", None) or getattr(r, "text", None) or str(r)`. -/
def extract_text (r : RunResult) : Str :=
  pyOrStr r.final_output (pyOrStr r.text r.strRepr)

/-- `run_planner` (lines 401-404): run the planner agent on the user text
and extract its text; an exception from the runner propagates. -/
def run_planner (runner : Str → Except Str RunResult) (user_text : Str) :
    Except Str Str :=
  (runner user_text).map extract_text

/-- `run_reviewer` (lines 407-410): run the reviewer agent on the
planner output and extract its text; an exception propagates. -/
def run_reviewer (runner : Str → Except Str RunResult) (plan_text : Str) :
    Except Str Str :=
  (runner plan_text).map extract_text

/-! ## Chat request handler (lines 459-538) -/

/-- A chat-history entry (`{"role": ..., "content": ...}`). -/
structure Message where
  role : Str
  content : Str
deriving DecidableEq

/-- `st.session_state`: the messages list and the parallel `meta` list
(`None` or `{"trace": ...}` entries). -/
structure SessionState where
  messages : List Message
  meta : List (Option Str)
deriving DecidableEq

/-- Process state visible to the handler: the session plus the
`TOOL_LOGGER` slot; when installed, the slot holds the per-request
`ui_tool_logger` callback, represented by its captured `tool_events`
buffer (freshly empty at installation). -/
structure World where
  session : SessionState
  TOOL_LOGGER : Option (List ToolEvent)
deriving DecidableEq

/-- `set_tool_logger` (lines 36-39): overwrite the global slot. -/
def set_tool_logger (logger : Option (List ToolEvent)) (w : World) : World :=
  { w with TOOL_LOGGER := logger }

/-- Observable steps the handler performs, in order. -/
inductive Action where
  | appendUserMsg (content : Str)
  | installLogger (buffer : List ToolEvent)
  | plannerCall (input : Str)
  | reviewerCall (input : Str)
  | renderFinal (content : Str)
  | renderRawPlan (content : Str)
  | appendAssistantMsg (content : Str)
  | renderError (content : Str)
  | removeLogger
deriving DecidableEq

/-- The error box built at line 531:
`f"⚠️ Error while processing your request:\n\n` ```` `\n{e}\n` ```` `"`. -/
def errorBox (e : Str) : Str :=
  "⚠️ Error while processing your request:\n\n```\n".toList ++ e ++ "\n```".toList

/-- The caption persisted with a successful answer (line 525). -/
def successTrace : Str := "Planner Agent → Reviewer Agent".toList

/-- The caption persisted with a failed answer (line 534). -/
def errorTrace : Str := "Runtime error.".toList

/-- The chat request handler (lines 459-538) for a submitted input:
append the user message, install a fresh per-request logger
(`ui_tool_logger` over a fresh empty `tool_events` list), run the planner
on the user text, run the reviewer on the planner text, render and
persist only the reviewer text (the raw plan is only rendered in the
same-turn expander); on an exception from either stage, render and
persist the error box instead; in all cases the `finally` block clears
the logger slot before returning. -/
def handle_chat (plannerRun reviewerRun : Str → Except Str RunResult)
    (w : World) (user_input : Str) : World × List Action :=
  let s1 : SessionState :=
    { messages := w.session.messages ++ [⟨"user".toList, user_input⟩],
      meta := w.session.meta ++ [Option.none] }
  let w1 := set_tool_logger (some []) { w with session := s1 }
  match run_planner plannerRun user_input with
  | .error e =>
      let err := errorBox e
      (set_tool_logger Option.none
        { w1 with session :=
            { messages := w1.session.messages ++ [⟨"assistant".toList, err⟩],
              meta := w1.session.meta ++ [some errorTrace] } },
       [.appendUserMsg user_input, .installLogger [], .plannerCall user_input,
        .renderError err, .appendAssistantMsg err, .removeLogger])
  | .ok plan_text =>
      match run_reviewer reviewerRun plan_text with
      | .error e =>
          let err := errorBox e
          (set_tool_logger Option.none
            { w1 with session :=
                { messages := w1.session.messages ++ [⟨"assistant".toList, err⟩],
                  meta := w1.session.meta ++ [some errorTrace] } },
           [.appendUserMsg user_input, .installLogger [], .plannerCall user_input,
            .reviewerCall plan_text, .renderError err, .appendAssistantMsg err,
            .removeLogger])
      | .ok review_text =>
          (set_tool_logger Option.none
            { w1 with session :=
                { messages := w1.session.messages ++ [⟨"assistant".toList, review_text⟩],
                  meta := w1.session.meta ++ [some successTrace] } },
           [.appendUserMsg user_input, .installLogger [], .plannerCall user_input,
            .reviewerCall plan_text, .renderFinal review_text,
            .renderRawPlan plan_text, .appendAssistantMsg review_text,
            .removeLogger])

/-! ## Lemmas about the substring test -/

theorem hasSub_nil_pat : ∀ s : Str, hasSub s [] = true
  | [] => rfl
  | _ :: _ => by simp [hasSub, firstMatches]

theorem fm_append_right : ∀ (pat s t : Str), firstMatches pat s = true →
    firstMatches pat (s ++ t) = true
  | [], _, _, _ => rfl
  | _ :: _, [], _, h => by simp [firstMatches] at h
  | a :: pa, b :: sb, t, h => by
      simp only [firstMatches, Bool.and_eq_true] at h
      simp only [List.cons_append, firstMatches, Bool.and_eq_true]
      exact ⟨h.1, fm_append_right pa sb t h.2⟩

theorem hasSub_append_left : ∀ (s t pat : Str), hasSub s pat = true →
    hasSub (s ++ t) pat = true
  | [], t, pat, h => by
      cases pat with
      | nil => exact hasSub_nil_pat t
      | cons a pa => simp [hasSub] at h
  | b :: rest, t, pat, h => by
      simp only [hasSub, Bool.or_eq_true] at h
      simp only [List.cons_append, hasSub, Bool.or_eq_true]
      rcases h with h | h
      · exact Or.inl (fm_append_right pat (b :: rest) t h)
      · exact Or.inr (hasSub_append_left rest t pat h)

theorem hasSub_append_right : ∀ (s t pat : Str), hasSub t pat = true →
    hasSub (s ++ t) pat = true
  | [], _, _, h => h
  | b :: rest, t, pat, h => by
      simp only [List.cons_append, hasSub, Bool.or_eq_true]
      exact Or.inr (hasSub_append_right rest t pat h)

theorem fm_refl : ∀ pat : Str, firstMatches pat pat = true
  | [] => rfl
  | a :: pa => by simp [firstMatches, fm_refl pa]

theorem hasSub_self : ∀ pat : Str, hasSub pat pat = true
  | [] => rfl
  | a :: pa => by
      simp only [hasSub, Bool.or_eq_true]
      exact Or.inl (fm_refl (a :: pa))

theorem fm_bound : ∀ (pat l : Str) (c : Char) (t : Str),
    firstMatches pat (l ++ c :: t) = true → (c ∈ pat → False) → pat.length ≤ l.length
  | [], _, _, _, _, _ => by simp
  | a :: pa, [], c, t, h, hc => by
      simp only [List.nil_append, firstMatches, Bool.and_eq_true, beq_iff_eq] at h
      exact absurd (by rw [← h.1]; exact List.mem_cons_self a pa) hc
  | a :: pa, b :: l', c, t, h, hc => by
      simp only [List.cons_append, firstMatches, Bool.and_eq_true, beq_iff_eq] at h
      have hrec := fm_bound pa l' c t h.2 (fun hm => hc (List.mem_cons_of_mem a hm))
      simpa [List.length_cons] using hrec

theorem fm_restrict : ∀ (pat s t : Str), firstMatches pat (s ++ t) = true →
    pat.length ≤ s.length → firstMatches pat s = true
  | [], _, _, _, _ => rfl
  | _ :: _, [], _, _, hl => by simp at hl
  | a :: pa, b :: s', t, h, hl => by
      simp only [List.cons_append, firstMatches, Bool.and_eq_true, beq_iff_eq] at h
      simp only [firstMatches, Bool.and_eq_true, beq_iff_eq]
      exact ⟨h.1, fm_restrict pa s' t h.2 (by simpa using hl)⟩

/-- If `pat` occurs in `l₁ ++ c :: l₂` but the character `c` does not occur
in `pat`, the occurrence lies wholly inside `l₁` or wholly inside `l₂`. -/
theorem hasSub_split : ∀ (l₁ : Str) (c : Char) (l₂ pat : Str),
    hasSub (l₁ ++ c :: l₂) pat = true → (c ∈ pat → False) →
    hasSub l₁ pat = true ∨ hasSub l₂ pat = true
  | [], c, l₂, pat, h, hc => by
      simp only [List.nil_append] at h
      cases pat with
      | nil => exact Or.inl (hasSub_nil_pat [])
      | cons a pa =>
          simp only [hasSub, Bool.or_eq_true] at h
          rcases h with h | h
          · simp only [firstMatches, Bool.and_eq_true, beq_iff_eq] at h
            exact absurd (by rw [← h.1]; exact List.mem_cons_self a pa) hc
          · exact Or.inr h
  | b :: l₁', c, l₂, pat, h, hc => by
      simp only [List.cons_append, hasSub, Bool.or_eq_true] at h
      rcases h with h | h
      · have hb : pat.length ≤ (b :: l₁').length := by
          have := fm_bound pat (b :: l₁') c l₂ (by simpa using h) hc
          simpa using this
        have hfm : firstMatches pat (b :: l₁') = true :=
          fm_restrict pat (b :: l₁') (c :: l₂) (by simpa using h) hb
        exact Or.inl (by simp [hasSub, hfm])
      · rcases hasSub_split l₁' c l₂ pat h hc with h' | h'
        · exact Or.inl (by simp [hasSub, h'])
        · exact Or.inr h'

theorem hasSub_take (s pat : Str) (n : Nat) (h : hasSub (s.take n) pat = true) :
    hasSub s pat = true := by
  have h2 := hasSub_append_left (s.take n) (s.drop n) pat h
  rwa [List.take_append_drop] at h2

theorem lowerStr_append (s t : Str) : lowerStr (s ++ t) = lowerStr s ++ lowerStr t :=
  List.map_append _ s t

theorem lowerStr_take (s : Str) (n : Nat) : lowerStr (s.take n) = (lowerStr s).take n :=
  List.map_take ..

theorem lowerStr_truncMarker : lowerStr truncMarker = truncMarker := by decide

/-- Appending the truncation marker to a 120-character slice cannot make a
clean string contain `pat`, provided `pat` has no `…` and does not occur in
the marker tail. -/
theorem hasSub_trunc_clean (pat s : Str) (hdots : '…' ∈ pat → False)
    (hmarker : hasSub " [truncated]".toList pat = false)
    (hs : hasSub (lowerStr s) pat = false) :
    hasSub (lowerStr (s.take 120 ++ truncMarker)) pat = false := by
  cases hcase : hasSub (lowerStr (s.take 120 ++ truncMarker)) pat with
  | false => rfl
  | true =>
      exfalso
      rw [lowerStr_append, lowerStr_take, lowerStr_truncMarker,
        show truncMarker = '…' :: " [truncated]".toList from rfl] at hcase
      rcases hasSub_split ((lowerStr s).take 120) '…' (" [truncated]".toList) pat hcase hdots with
        h | h
      · have h2 := hasSub_take (lowerStr s) pat 120 h
        rw [hs] at h2
        exact Bool.noConfusion h2
      · rw [hmarker] at h
        exact Bool.noConfusion h

/-- Truncation of a string with no sensitive substring yields a string
with no sensitive substring. -/
theorem strHasSensitive_trunc (s : Str) (h : strHasSensitive s = false) :
    strHasSensitive (s.take 120 ++ truncMarker) = false := by
  simp only [strHasSensitive, Bool.or_eq_false_iff] at h ⊢
  obtain ⟨⟨⟨h1, h2⟩, h3⟩, h4⟩ := h
  exact ⟨⟨⟨hasSub_trunc_clean _ s (by decide) (by decide) h1,
      hasSub_trunc_clean _ s (by decide) (by decide) h2⟩,
      hasSub_trunc_clean _ s (by decide) (by decide) h3⟩,
    hasSub_trunc_clean _ s (by decide) (by decide) h4⟩

theorem length_trunc (s : Str) : (s.take 120 ++ truncMarker).length ≤ 300 := by
  have h1 : (s.take 120).length ≤ 120 := by
    rw [List.length_take]
    exact min_le_left _ _
  have h2 : truncMarker.length = 13 := by decide
  simp only [List.length_append, h2]
  omega

/-! ## Lemmas about redaction -/

theorem specStrSensitive_eq (s : Str) : specStrSensitive s = strHasSensitive s := rfl

theorem specKeySensitive_eq (k : Str) : specKeySensitive k = keySensitiveLow (lowerStr k) := rfl

theorem redactSpec_str (s : Str) : redactSpec (.str s) = redactStr s := by
  simp only [redactSpec, redactStr, specStrSensitive_eq]

theorem redactedMarker_clean : strHasSensitive redactedMarker = false := by decide

theorem redactedMarker_short : redactedMarker.length ≤ 300 := by decide

/-- The output of `redactStr` is always a string value. -/
theorem redactStr_shape (s : Str) : ∃ t, redactStr s = .str t := by
  unfold redactStr
  split
  · exact ⟨_, rfl⟩
  · split
    · exact ⟨_, rfl⟩
    · exact ⟨_, rfl⟩

/-- The string produced by `redactStr` is a fixed point of `redactStr`:
it never contains a sensitive substring and is never longer than 300
characters. -/
theorem redactStr_fixpoint (s t : Str) (h : redactStr s = .str t) :
    redactStr t = .str t := by
  unfold redactStr at h
  by_cases h1 : strHasSensitive s = true
  · simp only [h1, if_true, PyVal.str.injEq] at h
    subst h
    decide
  · rw [Bool.not_eq_true] at h1
    by_cases h2 : s.length ≤ 300
    · simp only [h1, Bool.false_eq_true, if_false, h2, if_true, PyVal.str.injEq] at h
      subst h
      simp [redactStr, h1, h2]
    · simp only [h1, Bool.false_eq_true, if_false, h2, PyVal.str.injEq] at h
      subst h
      have hclean := strHasSensitive_trunc s h1
      have hlen := length_trunc s
      simp only [List.length_append, List.length_take] at hlen
      simp [redactStr, hclean]
      intro hcontra
      exfalso
      omega

mutual

theorem redactSpec_idem : ∀ v : PyVal, redactSpec (redactSpec v) = redactSpec v
  | .str s => by
      rw [redactSpec_str]
      obtain ⟨t, ht⟩ := redactStr_shape s
      rw [ht, redactSpec_str]
      exact redactStr_fixpoint s t ht
  | .int _ => rfl
  | .bool _ => rfl
  | .none => rfl
  | .dict d => by
      show PyVal.dict (redactSpecDict (redactSpecDict d)) = PyVal.dict (redactSpecDict d)
      rw [redactSpecDict_idem d]
  | .list l => by
      show PyVal.list (redactSpecList (redactSpecList l)) = PyVal.list (redactSpecList l)
      rw [redactSpecList_idem l]

theorem redactSpecDict_idem : ∀ d : PyDict, redactSpecDict (redactSpecDict d) = redactSpecDict d
  | .nil => rfl
  | .cons k v rest => by
      cases k with
      | str ks =>
          by_cases hk : specKeySensitive ks = true
          · simp only [redactSpecDict, hk, if_true, redactSpecDict_idem rest]
          · simp only [redactSpecDict, hk, if_false, Bool.false_eq_true,
              redactSpec_idem v, redactSpecDict_idem rest]
      | int n => simp only [redactSpecDict, redactSpec_idem v, redactSpecDict_idem rest]
      | bool b => simp only [redactSpecDict, redactSpec_idem v, redactSpecDict_idem rest]
      | none => simp only [redactSpecDict, redactSpec_idem v, redactSpecDict_idem rest]
      | dict d2 => simp only [redactSpecDict, redactSpec_idem v, redactSpecDict_idem rest]
      | list l2 => simp only [redactSpecDict, redactSpec_idem v, redactSpecDict_idem rest]

theorem redactSpecList_idem : ∀ l : PyList, redactSpecList (redactSpecList l) = redactSpecList l
  | .nil => rfl
  | .cons v rest => by
      simp only [redactSpecList, redactSpec_idem v, redactSpecList_idem rest]

end

mutual

/-- On string-keyed values the code redaction succeeds and agrees with the
reference redaction from the specification. -/
theorem redact_eq_spec : ∀ v : PyVal, strKeyed v = true → redact_for_logs v = .ok (redactSpec v)
  | .str _, _ => rfl
  | .int _, _ => rfl
  | .bool _, _ => rfl
  | .none, _ => rfl
  | .dict d, h => by
      have hd := redactDict_eq_spec d (by simpa [strKeyed] using h)
      simp only [redact_for_logs, hd, redactSpec, bind, Except.bind, pure, Except.pure]
  | .list l, h => by
      have hl := redactList_eq_spec l (by simpa [strKeyed] using h)
      simp only [redact_for_logs, hl, redactSpec, bind, Except.bind, pure, Except.pure]

theorem redactDict_eq_spec : ∀ d : PyDict, strKeyedDict d = true →
    redactDict d = .ok (redactSpecDict d)
  | .nil, _ => rfl
  | .cons k v rest, h => by
      cases k with
      | str ks =>
          simp only [strKeyedDict, Bool.and_eq_true] at h
          have hv := h.1.2
          have hrest := h.2
          by_cases hk : keySensitiveLow (lowerStr ks) = true
          · simp only [redactDict, pyLower, bind, Except.bind, hk, if_true,
              redactDict_eq_spec rest hrest, pure, Except.pure, redactSpecDict,
              specKeySensitive_eq]
          · simp only [redactDict, pyLower, bind, Except.bind, hk, if_false,
              Bool.false_eq_true, redact_eq_spec v hv, redactDict_eq_spec rest hrest,
              pure, Except.pure, redactSpecDict, specKeySensitive_eq]
      | int n => simp [strKeyedDict] at h
      | bool b => simp [strKeyedDict] at h
      | none => simp [strKeyedDict] at h
      | dict d2 => simp [strKeyedDict] at h
      | list l2 => simp [strKeyedDict] at h

theorem redactList_eq_spec : ∀ l : PyList, strKeyedList l = true →
    redactList l = .ok (redactSpecList l)
  | .nil, _ => rfl
  | .cons v rest, h => by
      simp only [strKeyedList, Bool.and_eq_true] at h
      simp only [redactList, bind, Except.bind, redact_eq_spec v h.1,
        redactList_eq_spec rest h.2, pure, Except.pure, redactSpecList]

end

mutual

/-- Reference redaction preserves string-keyedness. -/
theorem strKeyed_redactSpec : ∀ v : PyVal, strKeyed v = true → strKeyed (redactSpec v) = true
  | .str s, _ => by
      rw [redactSpec_str]
      obtain ⟨t, ht⟩ := redactStr_shape s
      rw [ht]
      rfl
  | .int _, _ => rfl
  | .bool _, _ => rfl
  | .none, _ => rfl
  | .dict d, h => by
      have hd := strKeyedDict_redactSpec d (by simpa [strKeyed] using h)
      simpa [redactSpec, strKeyed] using hd
  | .list l, h => by
      have hl := strKeyedList_redactSpec l (by simpa [strKeyed] using h)
      simpa [redactSpec, strKeyed] using hl

theorem strKeyedDict_redactSpec : ∀ d : PyDict, strKeyedDict d = true →
    strKeyedDict (redactSpecDict d) = true
  | .nil, _ => rfl
  | .cons k v rest, h => by
      cases k with
      | str ks =>
          simp only [strKeyedDict, Bool.and_eq_true] at h
          by_cases hk : specKeySensitive ks = true
          · simp only [redactSpecDict, hk, if_true]
            simp [strKeyedDict, strKeyed, strKeyedDict_redactSpec rest h.2]
          · simp only [redactSpecDict, hk, if_false, Bool.false_eq_true]
            simp [strKeyedDict, strKeyed_redactSpec v h.1.2, strKeyedDict_redactSpec rest h.2]
      | int n => simp [strKeyedDict] at h
      | bool b => simp [strKeyedDict] at h
      | none => simp [strKeyedDict] at h
      | dict d2 => simp [strKeyedDict] at h
      | list l2 => simp [strKeyedDict] at h

theorem strKeyedList_redactSpec : ∀ l : PyList, strKeyedList l = true →
    strKeyedList (redactSpecList l) = true
  | .nil, _ => rfl
  | .cons v rest, h => by
      simp only [strKeyedList, Bool.and_eq_true] at h
      simp only [redactSpecList, strKeyedList, Bool.and_eq_true]
      exact ⟨strKeyed_redactSpec v h.1, strKeyedList_redactSpec rest h.2⟩

end

/-! ## Handler case analysis -/

theorem emitAll_none {σ : Type} : ∀ (evs : List ToolEvent) (s : σ),
    emitAll Option.none evs s = (s, Option.none)
  | [], _ => rfl
  | _ :: rest, s => emitAll_none rest s

/-- The three possible executions of the chat handler: the planner raises,
the reviewer raises, or both stages succeed. -/
theorem handle_chat_shape (pr rr : Str → Except Str RunResult) (w : World) (input : Str) :
    (∃ e, pr input = .error e ∧
      handle_chat pr rr w input =
        (World.mk
          (SessionState.mk
            (w.session.messages ++
              [Message.mk "user".toList input, Message.mk "assistant".toList (errorBox e)])
            (w.session.meta ++ [Option.none, some errorTrace]))
          Option.none,
         [.appendUserMsg input, .installLogger [], .plannerCall input,
          .renderError (errorBox e), .appendAssistantMsg (errorBox e), .removeLogger]))
  ∨ (∃ p e, pr input = .ok p ∧ rr (extract_text p) = .error e ∧
      handle_chat pr rr w input =
        (World.mk
          (SessionState.mk
            (w.session.messages ++
              [Message.mk "user".toList input, Message.mk "assistant".toList (errorBox e)])
            (w.session.meta ++ [Option.none, some errorTrace]))
          Option.none,
         [.appendUserMsg input, .installLogger [], .plannerCall input,
          .reviewerCall (extract_text p), .renderError (errorBox e),
          .appendAssistantMsg (errorBox e), .removeLogger]))
  ∨ (∃ p r, pr input = .ok p ∧ rr (extract_text p) = .ok r ∧
      handle_chat pr rr w input =
        (World.mk
          (SessionState.mk
            (w.session.messages ++
              [Message.mk "user".toList input,
                Message.mk "assistant".toList (extract_text r)])
            (w.session.meta ++ [Option.none, some successTrace]))
          Option.none,
         [.appendUserMsg input, .installLogger [], .plannerCall input,
          .reviewerCall (extract_text p), .renderFinal (extract_text r),
          .renderRawPlan (extract_text p), .appendAssistantMsg (extract_text r),
          .removeLogger])) := by
  cases hp : pr input with
  | error e =>
      left
      exact ⟨e, rfl,
        by simp [handle_chat, run_planner, hp, Except.map, set_tool_logger]⟩
  | ok p =>
      cases hr : rr (extract_text p) with
      | error e =>
          right; left
          exact ⟨p, e, rfl, hr,
            by simp [handle_chat, run_planner, run_reviewer, hp, hr, Except.map,
              set_tool_logger]⟩
      | ok r =>
          right; right
          exact ⟨p, r, rfl, hr,
            by simp [handle_chat, run_planner, run_reviewer, hp, hr, Except.map,
              set_tool_logger]⟩

/-! ## Claims -/

/-- Claim C1: when both stages succeed, the handler runs the planner on
the user text, then the reviewer on the planner's extracted text, persists
exactly the reviewer's extracted text to the conversation history, and
only renders the planner's raw text for same-turn disclosure. -/
theorem claim_C1_pipeline_final_is_reviewer (pr rr : Str → Except Str RunResult)
    (w : World) (input : Str) (p r : RunResult)
    (hp : pr input = .ok p) (hr : rr (extract_text p) = .ok r) :
    handle_chat pr rr w input =
      (World.mk
        (SessionState.mk
          (w.session.messages ++
            [Message.mk "user".toList input,
              Message.mk "assistant".toList (extract_text r)])
          (w.session.meta ++ [Option.none, some successTrace]))
        Option.none,
       [.appendUserMsg input, .installLogger [], .plannerCall input,
        .reviewerCall (extract_text p), .renderFinal (extract_text r),
        .renderRawPlan (extract_text p), .appendAssistantMsg (extract_text r),
        .removeLogger]) := by
  simp [handle_chat, run_planner, run_reviewer, hp, hr, Except.map, set_tool_logger]

theorem claim_C1_witness :
    handle_chat (fun _ => .ok ⟨some "plan".toList, Option.none, "p".toList⟩)
        (fun _ => .ok ⟨some "revised".toList, Option.none, "r".toList⟩)
        ⟨⟨[], []⟩, Option.none⟩ "trip".toList =
      (⟨⟨[⟨"user".toList, "trip".toList⟩, ⟨"assistant".toList, "revised".toList⟩],
         [Option.none, some successTrace]⟩, Option.none⟩,
       [.appendUserMsg "trip".toList, .installLogger [], .plannerCall "trip".toList,
        .reviewerCall "plan".toList, .renderFinal "revised".toList,
        .renderRawPlan "plan".toList, .appendAssistantMsg "revised".toList,
        .removeLogger]) :=
  claim_C1_pipeline_final_is_reviewer
    (fun _ => .ok ⟨some "plan".toList, Option.none, "p".toList⟩)
    (fun _ => .ok ⟨some "revised".toList, Option.none, "r".toList⟩)
    ⟨⟨[], []⟩, Option.none⟩ "trip".toList
    ⟨some "plan".toList, Option.none, "p".toList⟩
    ⟨some "revised".toList, Option.none, "r".toList⟩ rfl rfl

/-- Claim C2: every invocation of the search tool adapter emits an event
sequence that begins with exactly one `call` event and ends with exactly
one `end` event, on every exit path (success, empty results, missing
credential, underlying exception). -/
theorem claim_C2_events_bracketed (env : Option Str) (tav : TavilyOutcome) (q : Str) :
    ((internet_search env tav q).2.map ToolEvent.etype).head? = some EvType.call
  ∧ ((internet_search env tav q).2.map ToolEvent.etype).getLast? = some EvType.evEnd
  ∧ ((internet_search env tav q).2.map ToolEvent.etype).count EvType.call = 1
  ∧ ((internet_search env tav q).2.map ToolEvent.etype).count EvType.evEnd = 1 := by
  cases env with
  | none => exact ⟨rfl, rfl, rfl, rfl⟩
  | some s =>
      cases s with
      | nil => exact ⟨rfl, rfl, rfl, rfl⟩
      | cons c cs =>
          cases tav with
          | success items => exact ⟨rfl, rfl, rfl, rfl⟩
          | raises m => exact ⟨rfl, rfl, rfl, rfl⟩

/-- Claim C3: the search tool adapter never raises to its caller.  With a
missing credential (`None` or empty) it returns the missing-credential
string and emits exactly one `call`, one `error` and one `end` event and
no `result` event; when the underlying call raises with message `m`, it
returns a string containing `m` and emits an `error` event carrying `m`
before the `end` event. -/
theorem claim_C3_tool_failures_contained :
    (∀ (tav : TavilyOutcome) (q : Str),
      internet_search Option.none tav q =
          ("Search error: ".toList ++ "missing TAVILY_API_KEY in environment.".toList,
           [ToolEvent.callEv searchToolName
              (PyVal.dict (PyDict.cons (PyVal.str "query".toList) (redactStr q) PyDict.nil)),
            ToolEvent.errorEv searchToolName "missing TAVILY_API_KEY in environment.".toList,
            ToolEvent.endEv searchToolName])
        ∧ internet_search (some []) tav q =
          ("Search error: ".toList ++ "missing TAVILY_API_KEY in environment.".toList,
           [ToolEvent.callEv searchToolName
              (PyVal.dict (PyDict.cons (PyVal.str "query".toList) (redactStr q) PyDict.nil)),
            ToolEvent.errorEv searchToolName "missing TAVILY_API_KEY in environment.".toList,
            ToolEvent.endEv searchToolName]))
  ∧ ∀ (c : Char) (cs q m : Str),
      internet_search (some (c :: cs)) (.raises m) q =
          ("Search error: ".toList ++ m,
           [ToolEvent.callEv searchToolName
              (PyVal.dict (PyDict.cons (PyVal.str "query".toList) (redactStr q) PyDict.nil)),
            ToolEvent.errorEv searchToolName m,
            ToolEvent.endEv searchToolName])
        ∧ hasSub (internet_search (some (c :: cs)) (.raises m) q).1 m = true :=
  ⟨fun _ _ => ⟨rfl, rfl⟩,
   fun _ _ _ m => ⟨rfl, hasSub_append_right _ _ _ (hasSub_self m)⟩⟩

/-- Claim C4: the handler installs a fresh (empty-buffer) logger sink
before invoking the planner, the logger slot is cleared and the last
action is the removal on every path; if the planner raises, the reviewer
is not attempted (its action does not occur), the exception reaches the
handler's error branch, and the logger is uninstalled afterwards. -/
theorem claim_C4_logger_lifecycle (pr rr : Str → Except Str RunResult)
    (w : World) (input : Str) :
    (∃ rest, (handle_chat pr rr w input).2 =
        Action.appendUserMsg input :: Action.installLogger [] ::
          Action.plannerCall input :: rest)
  ∧ (handle_chat pr rr w input).1.TOOL_LOGGER = Option.none
  ∧ (handle_chat pr rr w input).2.getLast? = some Action.removeLogger
  ∧ ∀ e, pr input = .error e →
      (handle_chat pr rr w input).2 =
          [Action.appendUserMsg input, Action.installLogger [], Action.plannerCall input,
           Action.renderError (errorBox e), Action.appendAssistantMsg (errorBox e),
           Action.removeLogger]
        ∧ (handle_chat pr rr w input).1.session.messages =
            w.session.messages ++ [⟨"user".toList, input⟩, ⟨"assistant".toList, errorBox e⟩] := by
  rcases handle_chat_shape pr rr w input with ⟨e, he, hc⟩ | ⟨p, e, hp, hr, hc⟩ |
    ⟨p, r, hp, hr, hc⟩
  · rw [hc]
    refine ⟨⟨_, rfl⟩, rfl, rfl, ?_⟩
    intro e' he'
    rw [he] at he'
    injection he' with h
    subst h
    exact ⟨rfl, rfl⟩
  · rw [hc]
    refine ⟨⟨_, rfl⟩, rfl, rfl, ?_⟩
    intro e' he'
    rw [hp] at he'
    exact Except.noConfusion he'
  · rw [hc]
    refine ⟨⟨_, rfl⟩, rfl, rfl, ?_⟩
    intro e' he'
    rw [hp] at he'
    exact Except.noConfusion he'

theorem claim_C4_witness :
    (handle_chat (fun _ => .error "boom".toList)
        (fun _ => .ok ⟨Option.none, Option.none, []⟩)
        ⟨⟨[], []⟩, Option.none⟩ "hi".toList).2 =
        [Action.appendUserMsg "hi".toList, Action.installLogger [],
         Action.plannerCall "hi".toList, Action.renderError (errorBox "boom".toList),
         Action.appendAssistantMsg (errorBox "boom".toList), Action.removeLogger]
      ∧ (handle_chat (fun _ => .error "boom".toList)
          (fun _ => .ok ⟨Option.none, Option.none, []⟩)
          ⟨⟨[], []⟩, Option.none⟩ "hi".toList).1.session.messages =
        [] ++ [⟨"user".toList, "hi".toList⟩, ⟨"assistant".toList, errorBox "boom".toList⟩] :=
  (claim_C4_logger_lifecycle _ _ _ _).2.2.2 "boom".toList rfl

/-- Claim C5 counterexample: on a mapping with a non-string key the code
redaction raises (`k.lower()` has no meaning on an `int`), so it does not
equal the reference redaction on every input value. -/
theorem claim_C5_counterexample :
    redact_for_logs (.dict (.cons (.int 1) (.str "a".toList) .nil)) ≠
      Except.ok (redactSpec (.dict (.cons (.int 1) (.str "a".toList) .nil))) := by
  decide

/-- Claim C5 (amended): on every string-keyed input value, `redact_for_logs`
equals the reference redaction written from the specification: sensitive
strings become the marker, short strings pass through, long strings are
truncated to 120 characters plus the marker, sensitive-keyed mapping
entries are masked, other entries and list elements recurse. -/
theorem claim_C5_redact_matches_reference (v : PyVal) (h : strKeyed v = true) :
    redact_for_logs v = .ok (redactSpec v) :=
  redact_eq_spec v h

theorem claim_C5_witness :
    strKeyed (.str "hello".toList) = true
  ∧ redact_for_logs (.str "hello".toList) = .ok (redactSpec (.str "hello".toList)) :=
  ⟨by decide, claim_C5_redact_matches_reference (.str "hello".toList) (by decide)⟩

/-- Claim C6 counterexample: the redaction utility does raise on some
input values — a mapping with an `int` key makes `k.lower()` raise
`AttributeError`. -/
theorem claim_C6_counterexample :
    redact_for_logs (.dict (.cons (.int 2) (.str "b".toList) .nil)) =
      .error "AttributeError: object has no attribute lower".toList := rfl

/-- Claim C6 (amended): on every input value whose mapping keys are all
strings (including nested maps, lists, and non-string scalars as values),
the redaction utility never raises; it is pure by construction. -/
theorem claim_C6_never_raises_on_string_keyed (v : PyVal) (h : strKeyed v = true) :
    ∃ w, redact_for_logs v = .ok w :=
  ⟨redactSpec v, redact_eq_spec v h⟩

theorem claim_C6_witness :
    strKeyed (.dict (.cons (.str "q".toList) (.list (.cons (.int 3) .nil)) .nil)) = true
  ∧ ∃ w, redact_for_logs
      (.dict (.cons (.str "q".toList) (.list (.cons (.int 3) .nil)) .nil)) = .ok w :=
  ⟨by decide, claim_C6_never_raises_on_string_keyed
    (.dict (.cons (.str "q".toList) (.list (.cons (.int 3) .nil)) .nil)) (by decide)⟩

/-- Claim C7: with no logger installed, emitting any number of events
does not raise and has no effect; with a sink installed, an exception
raised inside the sink is swallowed, so `log_tool_event` never propagates
a failure to the operation being logged. -/
theorem claim_C7_emit_is_harmless :
    (∀ (σ : Type) (evs : List ToolEvent) (s : σ),
      emitAll Option.none evs s = (s, Option.none))
  ∧ ∀ (σ : Type) (f : SinkFun σ) (ev : ToolEvent) (s : σ),
      (log_tool_event (some f) ev s).2 = Option.none :=
  ⟨fun _ evs s => emitAll_none evs s, fun _ _ _ _ => rfl⟩

/-- Claim C8: text extraction prefers a present non-empty `final_output`,
then a present non-empty `text`, and otherwise falls back to the generic
string rendering. -/
theorem claim_C8_extract_text_preference (r : RunResult) :
    (∀ s, r.final_output = some s → s.isEmpty = false → extract_text r = s)
  ∧ ((r.final_output = Option.none ∨ r.final_output = some []) →
      ∀ t, r.text = some t → t.isEmpty = false → extract_text r = t)
  ∧ ((r.final_output = Option.none ∨ r.final_output = some []) →
      (r.text = Option.none ∨ r.text = some []) → extract_text r = r.strRepr) := by
  obtain ⟨fo, tx, sr⟩ := r
  refine ⟨?_, ?_, ?_⟩
  · intro s hs hne
    cases hs
    simp [extract_text, pyOrStr, hne]
  · intro hfo t ht hne
    cases ht
    rcases hfo with h | h <;> cases h <;> simp [extract_text, pyOrStr, hne]
  · intro hfo htx
    rcases hfo with h | h <;> cases h <;> rcases htx with h2 | h2 <;> cases h2 <;>
      simp [extract_text, pyOrStr]

theorem claim_C8_witness :
    extract_text ⟨some "final".toList, some "txt".toList, "obj".toList⟩ = "final".toList :=
  (claim_C8_extract_text_preference ⟨some "final".toList, some "txt".toList, "obj".toList⟩).1
    "final".toList rfl (by decide)

/-- Claim C9: on a successful search the adapter returns each result as a
one-line `- title: content` bullet joined by newlines (or the fixed
no-results string for an empty result set) and emits a `result` event
whose preview is the redacted 400-character-capped preview of that
output. -/
theorem claim_C9_success_formatting :
    (∀ (c : Char) (cs q : Str),
      internet_search (some (c :: cs)) (.success []) q =
        ("No results found.".toList,
         [ToolEvent.callEv searchToolName
            (PyVal.dict (PyDict.cons (PyVal.str "query".toList) (redactStr q) PyDict.nil)),
          ToolEvent.resultEv searchToolName (redactStr "No results found.".toList),
          ToolEvent.endEv searchToolName]))
  ∧ ∀ (c : Char) (cs q : Str) (it : TavilyItem) (its : List TavilyItem),
      internet_search (some (c :: cs)) (.success (it :: its)) q =
        (List.intercalate "\n".toList ((it :: its).map (fun r =>
           "- ".toList ++ r.title.getD "N/A".toList ++ ": ".toList ++
             r.content.getD "N/A".toList)),
         [ToolEvent.callEv searchToolName
            (PyVal.dict (PyDict.cons (PyVal.str "query".toList) (redactStr q) PyDict.nil)),
          ToolEvent.resultEv searchToolName
            (redactStr ((List.intercalate "\n".toList ((it :: its).map (fun r =>
                "- ".toList ++ r.title.getD "N/A".toList ++ ": ".toList ++
                  r.content.getD "N/A".toList))).take 400 ++
              (if 400 < (List.intercalate "\n".toList ((it :: its).map (fun r =>
                  "- ".toList ++ r.title.getD "N/A".toList ++ ": ".toList ++
                    r.content.getD "N/A".toList))).length then "…".toList else []))),
          ToolEvent.endEv searchToolName]) :=
  ⟨fun _ _ _ => rfl, fun _ _ _ _ _ => rfl⟩

/-- Claim C10: redaction is idempotent on every value built from strings,
string-keyed maps, lists and other scalars. -/
theorem claim_C10_redact_idempotent (v w : PyVal) (h1 : strKeyed v = true)
    (h2 : redact_for_logs v = .ok w) : redact_for_logs w = .ok w := by
  have h3 := redact_eq_spec v h1
  rw [h2] at h3
  injection h3 with h4
  subst h4
  have h5 := redact_eq_spec (redactSpec v) (strKeyed_redactSpec v h1)
  rw [h5, redactSpec_idem v]

theorem claim_C10_witness :
    strKeyed (.dict (.cons (.str "api_key".toList) (.str "x".toList) .nil)) = true
  ∧ redact_for_logs (.dict (.cons (.str "api_key".toList) (.str "x".toList) .nil)) =
      .ok (.dict (.cons (.str "api_key".toList) (.str redactedMarker) .nil))
  ∧ redact_for_logs (.dict (.cons (.str "api_key".toList) (.str redactedMarker) .nil)) =
      .ok (.dict (.cons (.str "api_key".toList) (.str redactedMarker) .nil)) :=
  ⟨by decide, by decide,
   claim_C10_redact_idempotent
     (.dict (.cons (.str "api_key".toList) (.str "x".toList) .nil))
     (.dict (.cons (.str "api_key".toList) (.str redactedMarker) .nil))
     (by decide) (by decide)⟩

end TravelPlanner
